import Mathlib

set_option linter.unusedVariables false
set_option maxRecDepth 4000

/-!
Shallow embedding of `google_tools.py` (the `openwebui-tools` Google
Calendar / Gmail integration, history revision `20250528105907`, which is the
revision the specification describes) together with proofs about the embedded
operations.

Modelling conventions:
* Python exceptions are modelled by the inductive `PyExc`; a computation that
  can raise is an `Except PyExc` value, and `.error e` means the exception `e`
  propagates to the caller.
* Python byte strings are `List Nat` (each entry < 256).
* The parts of the Python standard library the code calls
  (`base64.b64decode` / `base64.urlsafe_b64encode`, `html.escape`,
  `bytes.decode("utf-8", errors="replace")`, `email.message.EmailMessage`
  serialisation) are embedded from their documented behaviour, since the
  repository delegates to them.
* The vendor Google API client is out of scope per the spec; each public
  operation is parameterised by a small world record describing the data the
  API would return, and by an `Option Unit` standing for the
  `__event_emitter__` argument (`none` models Python `None`).
-/

/-- Python exception values that the embedded code can raise or catch. -/
inductive PyExc where
  | httpError (msg : String)
  | indexError
  | keyError (key : String)
  | valueError (msg : String)
  | typeError
  | fileNotFoundError (path : String)
  deriving DecidableEq, Repr

/-- Message rendering used when an exception is interpolated into an f-string
(`f"Error: \x7berr\x7d"`).  Only the constructors that carry text matter for the
claims; the others render as a fixed tag. -/
def pyExcMessage : PyExc → String
  | .httpError m => m
  | .indexError => "list index out of range"
  | .keyError k => k
  | .valueError m => m
  | .typeError => "TypeError"
  | .fileNotFoundError p => p

/-- Embedding of `await __event_emitter__(...)`: with the default
`__event_emitter__=None` the call raises `TypeError` (`NoneType` is not
callable); with a real emitter it succeeds and its result is ignored. -/
def awaitEmitter (emitter : Option Unit) : Except PyExc Unit :=
  match emitter with
  | some _ => .ok ()
  | none => .error .typeError

/-! ## base64 (standard library model)

`base64.b64decode` (with default `validate=False`) discards characters outside
the base64 alphabet, then decodes groups of four symbols; malformed padding
raises `binascii.Error`, a subclass of `ValueError`.  `base64.urlsafe_b64encode`
uses `-` and `_` for the two final alphabet positions. -/

/-- Value of one character of the standard base64 alphabet (`A-Z`, `a-z`,
`0-9`, `+`, `/`); `none` for characters outside the alphabet. -/
def b64DecVal (c : Char) : Option Nat :=
  if 65 ≤ c.toNat ∧ c.toNat ≤ 90 then some (c.toNat - 65)
  else if 97 ≤ c.toNat ∧ c.toNat ≤ 122 then some (c.toNat - 97 + 26)
  else if 48 ≤ c.toNat ∧ c.toNat ≤ 57 then some (c.toNat - 48 + 52)
  else if c.toNat = 43 then some 62
  else if c.toNat = 47 then some 63
  else none

/-- Character for a six-bit value in the standard base64 alphabet; the value
64 stands for the padding character `=`. -/
def b64EncChar (v : Nat) : Char :=
  if v < 26 then Char.ofNat (65 + v)
  else if v < 52 then Char.ofNat (97 + (v - 26))
  else if v < 62 then Char.ofNat (48 + (v - 52))
  else if v = 62 then Char.ofNat 43
  else if v = 63 then Char.ofNat 47
  else Char.ofNat 61

/-- Character for a six-bit value in the urlsafe base64 alphabet
(`-` and `_` replace `+` and `/`); the value 64 stands for `=`. -/
def b64UrlEncChar (v : Nat) : Char :=
  if v = 62 then Char.ofNat 45
  else if v = 63 then Char.ofNat 95
  else b64EncChar v

/-- Clean-up pass of `b64decode`: map each character to its six-bit value,
with 64 for the padding `=`, discarding characters outside the alphabet. -/
def b64Clean (s : List Char) : List Nat :=
  s.filterMap (fun c => if c.toNat = 61 then some 64 else b64DecVal c)

/-- Decode a cleaned symbol stream (six-bit values, 64 = padding) in groups of
four; raises `binascii.Error` (a `ValueError`) on malformed padding. -/
def b64DecodeGroups : List Nat → Except PyExc (List Nat)
  | [] => .ok []
  | a :: b :: c :: d :: rest =>
    if a < 64 ∧ b < 64 then
      if c = 64 ∧ d = 64 then
        if rest = [] then .ok [a * 4 + b / 16]
        else .error (.valueError "Incorrect padding")
      else if c < 64 ∧ d = 64 then
        if rest = [] then .ok [a * 4 + b / 16, (b % 16) * 16 + c / 4]
        else .error (.valueError "Incorrect padding")
      else if c < 64 ∧ d < 64 then
        match b64DecodeGroups rest with
        | .ok t => .ok ((a * 4 + b / 16) :: ((b % 16) * 16 + c / 4) :: ((c % 4) * 64 + d) :: t)
        | .error e => .error e
      else .error (.valueError "Incorrect padding")
    else .error (.valueError "Incorrect padding")
  | _ => .error (.valueError "Incorrect padding")

/-- Embedding of `base64.b64decode(data)` on a text argument. -/
def b64decode (s : String) : Except PyExc (List Nat) :=
  b64DecodeGroups (b64Clean s.data)

/-- The `-`/`_` to `+`/`/` translation of `base64.urlsafe_b64decode`. -/
def b64UrlTranslate (c : Char) : Char :=
  if c.toNat = 45 then Char.ofNat 43
  else if c.toNat = 95 then Char.ofNat 47 else c

/-- Embedding of `base64.urlsafe_b64decode`: translate `-`/`_` to `+`/`/`,
then decode as standard base64. -/
def urlsafeB64decode (s : String) : Except PyExc (List Nat) :=
  b64decode (String.mk (s.data.map b64UrlTranslate))

/-- Core of base64 encoding: bytes to six-bit symbol values (64 = padding). -/
def b64EncodeCore : List Nat → List Nat
  | [] => []
  | [a] => [a / 4, a % 4 * 16, 64, 64]
  | [a, b] => [a / 4, a % 4 * 16 + b / 16, b % 16 * 4, 64]
  | a :: b :: c :: rest =>
    (a / 4) :: (a % 4 * 16 + b / 16) :: (b % 16 * 4 + c / 64) :: (c % 64) :: b64EncodeCore rest

/-- Embedding of `base64.urlsafe_b64encode(bytes).decode()`. -/
def urlsafeB64encode (bs : List Nat) : String :=
  String.mk ((b64EncodeCore bs).map b64UrlEncChar)

/-! ## `bytes.decode("utf-8", errors="replace")` and `html.escape` -/

/-- The Unicode replacement character U+FFFD. -/
def replacementChar : Char := Char.ofNat 0xFFFD

/-- Whether a byte is a UTF-8 continuation byte in the given closed range. -/
def contIn (lo hi b : Nat) : Bool := lo ≤ b ∧ b ≤ hi

/-- Embedding of `bytes.decode("utf-8", errors="replace")`.  Valid UTF-8
decodes exactly; an invalid or truncated sequence contributes replacement
characters (the model consumes one byte per replacement, a harmless
simplification of CPython's maximal-subpart rule that no theorem relies on:
every theorem evaluates this function on valid ASCII only). -/
def utf8DecodeReplace : List Nat → List Char
  | [] => []
  | b :: rest =>
    if b < 0x80 then Char.ofNat b :: utf8DecodeReplace rest
    else if 0xC2 ≤ b ∧ b ≤ 0xDF then
      match rest with
      | b2 :: rest2 =>
        if contIn 0x80 0xBF b2 then
          Char.ofNat ((b - 0xC0) * 64 + (b2 - 0x80)) :: utf8DecodeReplace rest2
        else replacementChar :: utf8DecodeReplace (b2 :: rest2)
      | [] => [replacementChar]
    else if 0xE0 ≤ b ∧ b ≤ 0xEF then
      match rest with
      | b2 :: b3 :: rest3 =>
        if contIn (if b = 0xE0 then 0xA0 else 0x80) (if b = 0xED then 0x9F else 0xBF) b2
            ∧ contIn 0x80 0xBF b3 then
          Char.ofNat ((b - 0xE0) * 4096 + (b2 - 0x80) * 64 + (b3 - 0x80)) :: utf8DecodeReplace rest3
        else replacementChar :: utf8DecodeReplace (b2 :: b3 :: rest3)
      | [b2] => replacementChar :: utf8DecodeReplace [b2]
      | [] => [replacementChar]
    else if 0xF0 ≤ b ∧ b ≤ 0xF4 then
      match rest with
      | b2 :: b3 :: b4 :: rest4 =>
        if contIn (if b = 0xF0 then 0x90 else 0x80) (if b = 0xF4 then 0x8F else 0xBF) b2
            ∧ contIn 0x80 0xBF b3 ∧ contIn 0x80 0xBF b4 then
          Char.ofNat ((b - 0xF0) * 262144 + (b2 - 0x80) * 4096 + (b3 - 0x80) * 64 + (b4 - 0x80))
            :: utf8DecodeReplace rest4
        else replacementChar :: utf8DecodeReplace (b2 :: b3 :: b4 :: rest4)
      | [b2, b3] => replacementChar :: utf8DecodeReplace [b2, b3]
      | [b2] => replacementChar :: utf8DecodeReplace [b2]
      | [] => [replacementChar]
    else replacementChar :: utf8DecodeReplace rest

/-- One character of `html.escape(s)` (with the default `quote=True`): the five
special characters become entity references, everything else is untouched. -/
def htmlEscapeChar (c : Char) : String :=
  if c.toNat = 38 then "&amp;"
  else if c.toNat = 60 then "&lt;"
  else if c.toNat = 62 then "&gt;"
  else if c.toNat = 34 then "&quot;"
  else if c.toNat = 39 then "&#x27;"
  else String.mk [c]

/-- Embedding of `html.escape(s)` (sequential `str.replace` calls whose
replacement texts are untouched by the later replacements, hence a char map). -/
def htmlEscape (s : String) : String :=
  String.join (s.data.map htmlEscapeChar)

/-- Embedding of `decode_mail_body(data)`:
`html.escape(base64.b64decode(data).decode("utf-8", errors="replace"))`.
A `binascii.Error` from `b64decode` (a `ValueError`) propagates. -/
def decode_mail_body (data : String) : Except PyExc String :=
  match b64decode data with
  | .ok bytes => .ok (htmlEscape (String.mk (utf8DecodeReplace bytes)))
  | .error e => .error e

/-! ## Gmail message payloads and `parse_email_body` -/

/-- One entry of a Gmail `payload["headers"]` list. -/
structure EmailHeader where
  name : String
  value : String
  deriving Repr, DecidableEq

/-- The `body` dictionary of a payload or part; `data` is `none` when the
`"data"` key is absent (so that subscripting it raises `KeyError`). -/
structure BodyRec where
  data : Option String
  deriving Repr, DecidableEq

/-- A Gmail message payload (or part).  Each `Option` field is `none` when the
corresponding dictionary key is absent. -/
inductive Payload where
  | mk (mimeType : Option String) (headers : List EmailHeader)
      (parts : Option (List Payload)) (body : Option BodyRec)

/-- The `payload["mimeType"]` field (as stored; access may raise). -/
def Payload.mimeType : Payload → Option String
  | .mk m _ _ _ => m

/-- The `payload["headers"]` field. -/
def Payload.headers : Payload → List EmailHeader
  | .mk _ h _ _ => h

/-- The `payload["parts"]` field. -/
def Payload.parts : Payload → Option (List Payload)
  | .mk _ _ p _ => p

/-- The `payload["body"]` field. -/
def Payload.body : Payload → Option BodyRec
  | .mk _ _ _ b => b

/-- Python dictionary subscription `d[key]`: `KeyError` when the key is
absent. -/
def pyGet {α : Type} (v : Option α) (key : String) : Except PyExc α :=
  match v with
  | some x => .ok x
  | none => .error (.keyError key)

/-- The `for part in payload["parts"]` scan of `parse_email_body`: the first
part whose `mimeType` is `text/html` or `text/plain`; a part with no
`mimeType` key raises `KeyError` when reached. -/
def findTextPart : List Payload → Except PyExc (Option Payload)
  | [] => .ok none
  | p :: rest => do
    let mt ← pyGet p.mimeType "mimeType"
    if mt = "text/html" ∨ mt = "text/plain" then .ok (some p)
    else findTextPart rest

/-- The `try` block of `parse_email_body`. -/
def parseEmailBodyTry (p : Payload) : Except PyExc String := do
  let mt ← pyGet p.mimeType "mimeType"
  let matched ←
    if mt = "multipart/alternative" ∨ mt = "multipart/mixed" then do
      let parts ← pyGet p.parts "parts"
      findTextPart parts
    else .ok none
  match matched with
  | some part => do
    let bd ← pyGet part.body "body"
    let d ← pyGet bd.data "data"
    decode_mail_body d
  | none => do
    let bd ← pyGet p.body "body"
    let d ← pyGet bd.data "data"
    decode_mail_body d

/-- Embedding of `parse_email_body(payload)` with its three `except` clauses
(`ValueError`, `KeyError`, `Exception`); the result type still allows raising
so that "never raises" is a provable statement, not a typing artifact. -/
def parse_email_body (p : Payload) : Except PyExc String :=
  match parseEmailBodyTry p with
  | .ok s => .ok s
  | .error (.valueError m) => .ok ("Error decoding email body: " ++ m)
  | .error (.keyError k) => .ok ("Error parsing email body: " ++ k)
  | .error e => .ok ("Error: " ++ pyExcMessage e)

/-- Embedding of `get_header_value(payload, name)`:
`next((field for field in payload if field["name"] == name), None)`, yielding
the field's value, or the empty string when no name matches exactly. -/
def get_header_value (payload : List EmailHeader) (name : String) : String :=
  match payload.find? (fun f => f.name == name) with
  | some f => f.value
  | none => ""

/-! ## Output templates (`MAIN_FORMAT`, `MAIL_FORMAT`, `CALENDAR_FORMAT`)

Each template is embedded as the function `str.format` denotes on it, the
placeholders replaced by the arguments. -/

/-- Embedding of `MAIN_FORMAT.format(description=d, output=o)`. -/
def mainFormat (description output : String) : String :=
  "\n<interpreter_output>\n    <description>\n        " ++ description ++
  "\n    </description>\n    <output>\n        " ++ output ++
  "\n    </output>\n</interpreter_output>\n"

/-- Python `str(bool)` rendering used by `MAIL_FORMAT.format(unread=...)`. -/
def pyBoolStr (b : Bool) : String := if b then "True" else "False"

/-- Embedding of `MAIL_FORMAT.format(...)` applied to one message's fields. -/
def mailFormat (id date sender subject snippet : String) (unread : Bool)
    (emailBody : String) : String :=
  "\n<email>\n    <message_id>" ++ id ++ "</message_id>\n    <date>" ++ date ++
  "</date>\n    <from>" ++ sender ++ "</from>\n    <subject>" ++ subject ++
  "</subject>\n    <snippet>" ++ snippet ++ "</snippet>\n    <unread>" ++
  pyBoolStr unread ++ "</unread>\n    <email_body>" ++ emailBody ++
  "</email_body>\n</email>\n"

/-- Embedding of `CALENDAR_FORMAT.format(...)` applied to one event. -/
def calendarFormat (start summary calendar : String) : String :=
  "\n<event>\n    <start>" ++ start ++ "</start>\n    <summary>" ++ summary ++
  "</summary>\n    <calendar>" ++ calendar ++ "</calendar>\n</event>\n"

/-- The `Valves` configuration record of the tool. -/
structure Valves where
  default_calendar_entries : Int := 10
  default_email_entries : Int := 10
  path_to_credentials : String := "credentials.json"

/-! ## Gmail accessor operations -/

/-- One Gmail message as the vendor API returns it: the fields
`get_user_emails` / `get_email_content` read. -/
structure MailMessage where
  id : String
  snippet : String
  labelIds : List String
  payload : Payload

/-- The Gmail world a request runs against: the messages the account holds (in
the order the API lists them), whether the vendor call raises `HttpError`
(`fail = some msg`), and the `get_current_time()` value observed. -/
structure MailWorld where
  messages : List MailMessage
  fail : Option String := none
  now : String := ""

/-- Description string of `get_user_emails` (note the double space after
"requested", faithful to the source f-string). -/
def mailDesc (count : Int) (label now : String) : String :=
  "The requested  " ++ toString count ++
  " emails from the user's inbox that have the label " ++ label ++
  ". Today is " ++ now

/-- Format one listed message the way the loop body of `get_user_emails`
does, the body coming from `parse_email_body`. -/
def formatOneMail (m : MailMessage) : Except PyExc String := do
  let emailBody ← parse_email_body m.payload
  .ok (mailFormat m.id
    (get_header_value m.payload.headers "Date")
    (get_header_value m.payload.headers "From")
    (get_header_value m.payload.headers "Subject")
    m.snippet (m.labelIds.contains "UNREAD") emailBody)

/-- The `try` block of `get_user_emails`: list up to `count` message ids with
the label, fetch each, and accumulate `MAIL_FORMAT` records ("No messages
found." when the listing is empty). -/
def getUserEmailsTry (w : MailWorld) (count : Int) (label : String) :
    Except PyExc String := do
  match w.fail with
  | some m => .error (.httpError m)
  | none =>
    let msgs := (w.messages.filter (fun m => m.labelIds.contains label)).take count.toNat
    if msgs.isEmpty then .ok "No messages found."
    else msgs.foldlM (fun out m => do
      let s ← formatOneMail m
      .ok (out ++ s)) ""

/-- Embedding of `Tools.get_user_emails(count, label_id, __event_emitter__)`. -/
def get_user_emails (emitter : Option Unit) (valves : Valves) (w : MailWorld)
    (count : Int) (label : String) : Except PyExc String := do
  let count := if count = -1 then valves.default_email_entries else count
  awaitEmitter emitter
  let out ←
    match getUserEmailsTry w count label with
    | .ok o => pure o
    | .error (.httpError m) => pure ("An error occurred: " ++ m)
    | .error e => .error e
  let result := mainFormat (mailDesc count label w.now) ("<emails>" ++ out ++ "</emails>")
  awaitEmitter emitter
  .ok result

/-- Description string of `get_email_content`. -/
def contentDesc (messageId now : String) : String :=
  "Contents of the email message for message_id: " ++ messageId ++
  ". Today is " ++ now

/-- The `try` block of `get_email_content`: fetch the message by id and parse
its body (an unknown id surfaces as the vendor's `HttpError`). -/
def getEmailContentTry (w : MailWorld) (messageId : String) :
    Except PyExc String := do
  match w.fail with
  | some m => .error (.httpError m)
  | none =>
    match w.messages.find? (fun m => m.id == messageId) with
    | some mail => parse_email_body mail.payload
    | none => .error (.httpError ("404 message id not found: " ++ messageId))

/-- Embedding of `Tools.get_email_content(message_id, __event_emitter__)`. -/
def get_email_content (emitter : Option Unit) (w : MailWorld)
    (messageId : String) : Except PyExc String := do
  awaitEmitter emitter
  let emailBody ←
    match getEmailContentTry w messageId with
    | .ok s => pure s
    | .error (.httpError m) => pure ("An error occurred: " ++ m)
    | .error e => .error e
  let result := mainFormat (contentDesc messageId w.now)
    ("<![CDATA[" ++ emailBody ++ "]]>")
  awaitEmitter emitter
  .ok result

/-! ## Calendar aggregator -/

/-- Python string comparison (`<` on code points), Bool-valued so that proofs
can evaluate it. -/
def strLtB : List Char → List Char → Bool
  | [], [] => false
  | [], _ :: _ => true
  | _ :: _, [] => false
  | a :: as, b :: bs =>
    if a.toNat < b.toNat then true
    else if a.toNat = b.toNat then strLtB as bs
    else false

/-- Python `a <= b` on strings, as used by `list.sort(key=...)`. -/
def pyStrLE (a b : String) : Bool := ! strLtB b.data a.data

/-- One raw event as the Calendar API returns it: the fields `get_cal_evts`
reads.  `startDate` backs the `event["start"].get("date")` fallback (the API
guarantees a `date` exactly when there is no `dateTime`); an absent
`organizer.displayName` key is `none`. -/
structure RawEvent where
  startDateTime : Option String
  startDate : String
  summary : String
  organizerDisplayName : Option String
  organizerEmail : String

/-- One calendar: its id and the events the API returns for it (already
filtered to `timeMin = from_time` and ordered by start time, which is what the
`events().list(...)` call delivers). -/
structure Calendar where
  id : String
  events : List RawEvent

/-- The dictionary `get_cal_evts` appends per event: start (`dateTime`, else
all-day `date`), summary, and calendar label (organizer `displayName`, else
organizer email). -/
structure CalEvent where
  start : String
  summary : String
  calendar : String
  deriving Repr, DecidableEq

/-- Field mapping of the loop body of `get_cal_evts`. -/
def mkCalEvent (e : RawEvent) : CalEvent :=
  { start := e.startDateTime.getD e.startDate
    summary := e.summary
    calendar := e.organizerDisplayName.getD e.organizerEmail }

/-- Embedding of `get_cal_evts(service, calendar_id, number_of_events,
from_time)`: the API's `maxResults=number_of_events` caps the result per
calendar. -/
def get_cal_evts (cal : Calendar) (numberOfEvents : Nat) : List CalEvent :=
  (cal.events.take numberOfEvents).map mkCalEvent

/-- The event accumulation loop of `get_user_events`
(`event_list += get_cal_evts(...)` over `get_calendar_ids(service)`). -/
def eventListOf (cals : List Calendar) (count : Nat) : List CalEvent :=
  cals.foldl (fun acc cal => acc ++ get_cal_evts cal count) []

/-- The sort relation of `event_list.sort(key=lambda x: x["start"])`. -/
def calLE (a b : CalEvent) : Prop := pyStrLE a.start b.start = true

instance : DecidableRel calLE := fun a b => by unfold calLE; infer_instance

/-- `event_list` after the stable sort by `start` (CPython's list.sort is
stable; so is insertion sort, hence both compute the same list). -/
def sortedEventList (cals : List Calendar) (count : Nat) : List CalEvent :=
  List.insertionSort calLE (eventListOf cals count)

/-- The output loop `for i in range(count): out += CALENDAR_FORMAT.format(...)`
with Python indexing (`event_list[i]` raises `IndexError` past the end). -/
def calOutLoop (evts : List CalEvent) : Nat → Nat → String → Except PyExc String
  | 0, _, out => .ok out
  | n + 1, i, out =>
    match evts[i]? with
    | some e => calOutLoop evts n (i + 1) (out ++ calendarFormat e.start e.summary e.calendar)
    | none => .error .indexError

/-- The calendar world a request runs against. -/
structure CalWorld where
  calendars : List Calendar
  fail : Option String := none
  now : String := ""

/-- Description string of `get_user_events`. -/
def calDesc (count : Int) (now : String) : String :=
  "The requested " ++ toString count ++
  " upcoming events from the user's calendar. Today is " ++ now

/-- The `try` block of `get_user_events`. -/
def getUserEventsTry (w : CalWorld) (count : Int) : Except PyExc String :=
  match w.fail with
  | some m => .error (.httpError m)
  | none => calOutLoop (sortedEventList w.calendars count.toNat) count.toNat 0 ""

/-- Embedding of `Tools.get_user_events(count, __event_emitter__)`.  Only
`HttpError` is caught and rendered as text inside the envelope; any other
exception from the `try` block (notably `IndexError`) propagates. -/
def get_user_events (emitter : Option Unit) (valves : Valves) (w : CalWorld)
    (count : Int) : Except PyExc String := do
  let count := if count = -1 then valves.default_calendar_entries else count
  awaitEmitter emitter
  let out ←
    match getUserEventsTry w count with
    | .ok o => pure o
    | .error (.httpError m) => pure ("Error fetching calendar data: " ++ m)
    | .error e => .error e
  let results := mainFormat (calDesc count w.now) ("<events>" ++ out ++ "</events>")
  awaitEmitter emitter
  .ok results

/-! ## `gmail_create_draft` and the `EmailMessage` serialisation

`EmailMessage().set_content(body)` followed by `message["To"] = to`,
`message["Subject"] = subject` and `message.as_bytes()` is embedded for ASCII
inputs (the arguments the claims quantify over): with ASCII content the
content manager picks `Content-Transfer-Encoding: 7bit` and stores the body as
its lines rejoined with the policy line separator plus one final newline
(CPython `email.contentmanager._encode_text`). -/

/-- The line-feed character. -/
def lfChar : Char := Char.ofNat 10

/-- Python `str.splitlines()` restricted to line-feed terminators (the model's
inputs carry no `\r` or exotic terminators): split at each `\n`, no trailing
empty fragment. -/
def splitLinesLF : List Char → List (List Char)
  | [] => []
  | c :: rest =>
    if c.toNat = 10 then [] :: splitLinesLF rest
    else
      match splitLinesLF rest with
      | [] => [[c]]
      | l :: ls => (c :: l) :: ls

/-- Join lines with a line-feed separator (`linesep.join(lines)`). -/
def joinLF : List (List Char) → List Char
  | [] => []
  | [l] => l
  | l :: ls => l ++ lfChar :: joinLF ls

/-- The stored text payload: the body's lines joined with `\n` and one final
`\n` (`_encode_text`'s `embedded_body`). -/
def encodeTextPayload (body : List Char) : List Char :=
  joinLF (splitLinesLF body) ++ [lfChar]

/-- The header block of the serialised draft message, in insertion order
(`set_content` adds the content headers, then `To` and `Subject` are
appended). -/
def mimeHeaderChars (toAddr subject : String) : List Char :=
  ("Content-Type: text/plain; charset=\"utf-8\"").data ++ lfChar ::
    (("Content-Transfer-Encoding: 7bit").data ++ lfChar ::
      (("MIME-Version: 1.0").data ++ lfChar ::
        ((("To: ").data ++ toAddr.data) ++ lfChar ::
          (("Subject: ").data ++ subject.data))))

/-- Serialised draft message (`message.as_bytes()` as characters): the header
block, a blank line, then the stored payload. -/
def draftMimeChars (toAddr subject body : String) : List Char :=
  mimeHeaderChars toAddr subject ++ lfChar :: lfChar :: encodeTextPayload body.data

/-- Bytes of an ASCII character list. -/
def charsToBytes (s : List Char) : List Nat := s.map Char.toNat

/-- Characters of a byte list (used at scalar values below the surrogate
range, where `Char.ofNat` is exact). -/
def bytesToChars (bs : List Nat) : List Char := bs.map Char.ofNat

/-- The `raw` field of the draft-create request body:
`base64.urlsafe_b64encode(message.as_bytes()).decode()`. -/
def gmailDraftRaw (toAddr subject body : String) : String :=
  urlsafeB64encode (charsToBytes (draftMimeChars toAddr subject body))

/-- A Gmail write request the tool could submit. -/
inductive GmailAction where
  | draftCreate (raw : String)
  | send (raw : String)
  deriving DecidableEq, Repr

/-- The API request `gmail_create_draft` submits:
`service.users().drafts().create(userId="me", body={"message": {"raw": ...}})`
— a draft-create call, never a send. -/
def gmailCreateDraftRequest (toAddr subject body : String) : GmailAction :=
  .draftCreate (gmailDraftRaw toAddr subject body)

/-- World for `gmail_create_draft`: whether the vendor call raises. -/
structure DraftWorld where
  fail : Option String := none

/-- Embedding of `Tools.gmail_create_draft(to, subject, body,
__event_emitter__)`.  Note the returned text is NOT wrapped in `MAIN_FORMAT`:
the source returns `out` directly. -/
def gmail_create_draft (emitter : Option Unit) (w : DraftWorld)
    (toAddr subject body : String) : Except PyExc String := do
  awaitEmitter emitter
  let out :=
    match w.fail with
    | some m => "An error occurred: " ++ m
    | none => "Draft message created!"
  awaitEmitter emitter
  .ok out

/-! Modelled from the spec: the round-trip check of §8 ("the produced MIME
message decodes back to the same to/subject/body when base64url-decoded")
needs a MIME reader, which the repository does not contain; the reader below
follows the spec's words: split the decoded text at the first blank line,
read the `To:` and `Subject:` header lines, and take the rest as the body
content. -/

/-- Split at the first blank line (`\n\n`), the MIME header/body boundary. -/
def splitFirstBlankLine : List Char → Option (List Char × List Char)
  | [] => none
  | [_] => none
  | a :: b :: rest =>
    if a.toNat = 10 ∧ b.toNat = 10 then some ([], rest)
    else
      match splitFirstBlankLine (b :: rest) with
      | some (h, t) => some (a :: h, t)
      | none => none

/-- Split a character list at every `\n` (keeping empty fragments). -/
def splitLF : List Char → List (List Char)
  | [] => [[]]
  | c :: rest =>
    if c.toNat = 10 then [] :: splitLF rest
    else
      match splitLF rest with
      | [] => [[c]]
      | l :: ls => (c :: l) :: ls

/-- Whether `l` starts with `p`. -/
def leadsWith : List Char → List Char → Bool
  | [], _ => true
  | _ :: _, [] => false
  | p :: ps, c :: cs => p == c && leadsWith ps cs

/-- First header line starting with the given `Name: ` text, with that text
stripped. -/
def findHeaderVal (nameColon : List Char) : List (List Char) → Option (List Char)
  | [] => none
  | l :: ls =>
    if leadsWith nameColon l then some (l.drop nameColon.length)
    else findHeaderVal nameColon ls

/-- Modelled from the spec: parse a serialised MIME message into its To
address, Subject line and body content. -/
def parseMimeMessage (s : String) : Option (String × String × String) :=
  match splitFirstBlankLine s.data with
  | none => none
  | some (h, bodyPart) =>
    let lines := splitLF h
    match findHeaderVal ("To: ").data lines, findHeaderVal ("Subject: ").data lines with
    | some t, some sub => some (String.mk t, String.mk sub, String.mk bodyPart)
    | _, _ => none

/-! ## Credential manager (`get_google_creds`) -/

/-- A credential object (its serialised `to_json` form suffices here). -/
abbrev Creds := String

/-- Outcome of one run of the `try` block of `get_google_creds` (the
load/refresh/consent sequence): success with credentials, or an exception
together with the value the local variable `creds` holds at that moment
(`None` when nothing was loaded). -/
inductive CredAttempt where
  | success (c : Creds)
  | failure (e : PyExc) (leftover : Option Creds)

/-- World of the credential manager: whether `token.json` exists, and how the
load/refresh/consent sequence ends as a function of that existence. -/
structure CredWorld where
  tokenExists : Bool
  attemptResult : Bool → CredAttempt

/-- Observable filesystem/network events of `get_google_creds` that the
claims count. -/
inductive CredEvent where
  | attempt
  | deleteToken
  deriving DecidableEq, Repr

/-- Embedding of `Tools.get_google_creds(retry)`.  Returns the Python result
(`Except.error` = an uncaught exception propagating to the caller; `.ok` =
the returned `creds` value, possibly `None`) together with the list of
observable events.  On an exception in the `try` block: with `retry=True` the
code calls `os.remove("token.json")` — which itself raises
`FileNotFoundError` when the file does not exist, an exception the handler
does not catch — and recurses once with `retry=False`; with `retry=False` the
handler falls through and the function returns the current `creds` value,
swallowing the exception. -/
def get_google_creds (w : CredWorld) (retry : Bool) :
    Except PyExc (Option Creds) × List CredEvent :=
  match w.attemptResult w.tokenExists with
  | .success c => (.ok (some c), [.attempt])
  | .failure _ leftover =>
    if h : retry then
      if w.tokenExists then
        let r := get_google_creds { w with tokenExists := false } false
        (r.1, .attempt :: .deleteToken :: r.2)
      else (.error (.fileNotFoundError "token.json"), [.attempt])
    else (.ok leftover, [.attempt])
  termination_by (if retry then 1 else 0)
  decreasing_by simp [h]


/-! ## Predicates used by the theorems -/

/-- No character of the list is a line feed. -/
def noLF (l : List Char) : Bool := l.all (fun c => !(c.toNat == 10))

/-- No two consecutive characters of the list are both line feeds. -/
def noLFrun : List Char → Bool
  | [] => true
  | [_] => true
  | a :: b :: rest => !(a.toNat == 10 && b.toNat == 10) && noLFrun (b :: rest)

/-- Whether a character list begins with a line feed. -/
def headIsLF : List Char → Bool
  | [] => false
  | c :: _ => c.toNat == 10

/-- All characters of the string are ASCII. -/
def asciiStr (s : String) : Bool := s.data.all (fun c => c.toNat < 128)

/-- Header values `EmailMessage` accepts without raising and serialises
verbatim: ASCII with no line feed or carriage return. -/
def headerValueOk (s : String) : Bool :=
  s.data.all (fun c => c.toNat < 128 && !(c.toNat == 10) && !(c.toNat == 13))

/-- Body text the 7bit serialisation stores verbatim (up to the final
newline): ASCII with no carriage return. -/
def bodyTextOk (s : String) : Bool :=
  s.data.all (fun c => c.toNat < 128 && !(c.toNat == 13))

/-- Spec-side formatting of a list of calendar events, one
`CALENDAR_FORMAT` record each, in order. -/
def formatEvents : List CalEvent → String
  | [] => ""
  | e :: r => calendarFormat e.start e.summary e.calendar ++ formatEvents r

/-- Spec-side merge: the per-calendar capped fetches, mapped to events and
concatenated in calendar order without deduplication. -/
def mergedEvents (cals : List Calendar) (n : Nat) : List CalEvent :=
  (cals.map (fun c => (c.events.take n).map mkCalEvent)).flatten

/-- Spec-side result list: the merged events sorted ascending by the start
string (stably, as CPython's list.sort does). -/
def specSortedEvents (cals : List Calendar) (n : Nat) : List CalEvent :=
  List.insertionSort calLE (mergedEvents cals n)

/-- Whether a string has the `MAIN_FORMAT` envelope shape (it opens the
`<interpreter_output>` element). -/
def isEnveloped (s : String) : Bool :=
  leadsWith ("\n<interpreter_output>").data s.data

/-! ## Lemmas: base64 round trip -/

/-- Every symbol the encoder core emits is a six-bit value or the pad 64. -/
theorem b64EncodeCore_le (bs : List Nat) (h : ∀ x ∈ bs, x < 256) :
    ∀ v ∈ b64EncodeCore bs, v ≤ 64 := by
  induction bs using b64EncodeCore.induct with
  | case1 => intro v hv; simp [b64EncodeCore] at hv
  | case2 a =>
    have ha := h a (by simp)
    intro v hv
    simp [b64EncodeCore] at hv
    rcases hv with h1 | h1 | h1 | h1 <;> omega
  | case3 a b =>
    have ha := h a (by simp)
    have hb := h b (by simp)
    intro v hv
    simp [b64EncodeCore] at hv
    rcases hv with h1 | h1 | h1 | h1 <;> omega
  | case4 a b c rest ih =>
    have ha := h a (by simp)
    have hb := h b (by simp)
    have hc := h c (by simp)
    intro v hv
    simp only [b64EncodeCore, List.mem_cons] at hv
    rcases hv with h1 | h1 | h1 | h1 | h1
    · omega
    · omega
    · omega
    · omega
    · exact ih (fun x hx => h x (by simp [hx])) v h1

/-- Decoding the encoder core's symbol stream recovers the bytes. -/
theorem b64DecodeGroups_encodeCore (bs : List Nat) (h : ∀ x ∈ bs, x < 256) :
    b64DecodeGroups (b64EncodeCore bs) = .ok bs := by
  induction bs using b64EncodeCore.induct with
  | case1 => rfl
  | case2 a =>
    have ha := h a (by simp)
    have h1 : a / 4 < 64 := by omega
    have h2 : a % 4 * 16 < 64 := by omega
    simp [b64EncodeCore, b64DecodeGroups, h1, h2]
    omega
  | case3 a b =>
    have ha := h a (by simp)
    have hb := h b (by simp)
    have h1 : a / 4 < 64 := by omega
    have h2 : a % 4 * 16 + b / 16 < 64 := by omega
    have hne : b % 16 * 4 ≠ 64 := by omega
    have hlt : b % 16 * 4 < 64 := by omega
    simp [b64EncodeCore, b64DecodeGroups, h1, h2, hne, hlt]
    omega
  | case4 a b c rest ih =>
    have ha := h a (by simp)
    have hb := h b (by simp)
    have hc := h c (by simp)
    have h1 : a / 4 < 64 := by omega
    have h2 : a % 4 * 16 + b / 16 < 64 := by omega
    have hne : b % 16 * 4 + c / 64 ≠ 64 := by omega
    have hlt : b % 16 * 4 + c / 64 < 64 := by omega
    have hd : c % 64 < 64 := by omega
    have hdne : c % 64 ≠ 64 := by omega
    have ih2 := ih (fun x hx => h x (by simp [hx]))
    simp [b64EncodeCore, b64DecodeGroups, h1, h2, hne, hlt, hd, hdne, ih2]
    omega

/-- One-character round trip through the urlsafe alphabet: translating the
encoded character back and reading its six-bit value recovers the symbol. -/
theorem b64UrlEncChar_decode : ∀ v < 65,
    (if (b64UrlTranslate (b64UrlEncChar v)).toNat = 61 then some 64
     else b64DecVal (b64UrlTranslate (b64UrlEncChar v))) = some v := by
  decide

/-- Cleaning the translated urlsafe-encoded symbol stream is the identity. -/
theorem b64Clean_encoded (vals : List Nat) (h : ∀ v ∈ vals, v ≤ 64) :
    b64Clean ((vals.map b64UrlEncChar).map b64UrlTranslate) = vals := by
  induction vals with
  | nil => rfl
  | cons v rest ih =>
    have hv := h v (by simp)
    have hrest := ih (fun x hx => h x (by simp [hx]))
    have hc := b64UrlEncChar_decode v (by omega)
    simp only [List.map_cons, b64Clean, List.filterMap_cons]
    simp only [b64Clean] at hrest
    rw [hc, hrest]

/-- Round trip of the raw draft text: urlsafe-base64 decoding the encoded
bytes recovers them. -/
theorem urlsafeB64_roundtrip (bs : List Nat) (h : ∀ x ∈ bs, x < 256) :
    urlsafeB64decode (urlsafeB64encode bs) = .ok bs := by
  unfold urlsafeB64decode urlsafeB64encode b64decode
  have : (String.mk ((b64EncodeCore bs).map b64UrlEncChar)).data
      = (b64EncodeCore bs).map b64UrlEncChar := rfl
  rw [this, b64Clean_encoded _ (b64EncodeCore_le bs h)]
  exact b64DecodeGroups_encodeCore bs h

/-! ## Lemmas: characters, lines and MIME parsing -/

/-- A string is its character list. -/
theorem stringMkData (s : String) : String.mk s.data = s := by
  cases s
  rfl

/-- Characters below the surrogate range survive the byte round trip. -/
theorem bytesToChars_charsToBytes (l : List Char) (h : ∀ c ∈ l, c.toNat < 128) :
    bytesToChars (charsToBytes l) = l := by
  induction l with
  | nil => rfl
  | cons c rest ih =>
    simp only [bytesToChars, charsToBytes, List.map_cons] at *
    rw [Char.ofNat_toNat, ih (fun x hx => h x (by simp [hx]))]

/-- ASCII characters give bytes below 256. -/
theorem charsToBytes_lt (l : List Char) (h : ∀ c ∈ l, c.toNat < 128) :
    ∀ x ∈ charsToBytes l, x < 256 := by
  intro x hx
  simp only [charsToBytes, List.mem_map] at hx
  obtain ⟨c, hc, rfl⟩ := hx
  have := h c hc
  omega

/-- A list without line feeds has no line-feed run. -/
theorem noLFrun_of_noLF (l : List Char) (h : noLF l = true) : noLFrun l = true := by
  induction l with
  | nil => rfl
  | cons a rest ih =>
    cases rest with
    | nil => rfl
    | cons b r =>
      simp only [noLF, List.all_cons, Bool.and_eq_true, Bool.not_eq_true'] at h
      simp only [noLFrun, Bool.and_eq_true, Bool.not_eq_true']
      refine ⟨by simp [h.1], ih ?_⟩
      simp [noLF, h.2.1, h.2.2]

/-- Prepending a line-feed-free block preserves absence of line-feed runs. -/
theorem noLFrun_append_noLF (x y : List Char) (hx : noLF x = true)
    (hy : noLFrun y = true) : noLFrun (x ++ y) = true := by
  induction x with
  | nil => simpa using hy
  | cons a x' ih =>
    simp only [noLF, List.all_cons, Bool.and_eq_true, Bool.not_eq_true'] at hx
    have ih2 := ih (by simp [noLF, hx.2])
    cases hx' : x' with
    | nil =>
      cases y with
      | nil => rfl
      | cons b ys =>
        subst hx'
        simp only [List.nil_append, List.cons_append] at *
        simp only [noLFrun, Bool.and_eq_true, Bool.not_eq_true']
        exact ⟨by simp [hx.1], ih2⟩
    | cons c x'' =>
      subst hx'
      simp only [List.cons_append] at *
      simp only [noLFrun, Bool.and_eq_true, Bool.not_eq_true']
      exact ⟨by simp [hx.1], ih2⟩

/-- Prepending a header line and its terminator preserves absence of
line-feed runs, provided the continuation does not begin with a line feed. -/
theorem noLFrun_line_append (x y : List Char) (hx : noLF x = true)
    (hy : noLFrun y = true)
    (hhead : headIsLF y = false) :
    noLFrun (x ++ lfChar :: y) = true := by
  induction x with
  | nil =>
    cases y with
    | nil => rfl
    | cons b ys =>
      simp only [List.nil_append]
      simp only [noLFrun, Bool.and_eq_true, Bool.not_eq_true']
      simp only [headIsLF, beq_eq_false_iff_ne, ne_eq] at hhead
      refine ⟨by simp [lfChar]; omega, hy⟩
  | cons a x' ih =>
    simp only [noLF, List.all_cons, Bool.and_eq_true, Bool.not_eq_true'] at hx
    have ih2 := ih (by simp [noLF, hx.2])
    cases hx' : x' with
    | nil =>
      subst hx'
      simp only [List.nil_append, List.cons_append] at *
      simp only [noLFrun, Bool.and_eq_true, Bool.not_eq_true']
      exact ⟨by simp [hx.1], ih2⟩
    | cons c x'' =>
      subst hx'
      simp only [List.cons_append] at *
      simp only [noLFrun, Bool.and_eq_true, Bool.not_eq_true']
      exact ⟨by simp [hx.1], ih2⟩

/-- The blank-line split finds exactly the header/body boundary when the
header block (with its final line terminator) has no line-feed run. -/
theorem splitFirstBlankLine_append (H P : List Char)
    (h : noLFrun (H ++ [lfChar]) = true) :
    splitFirstBlankLine (H ++ lfChar :: lfChar :: P) = some (H, P) := by
  induction H with
  | nil => rfl
  | cons a H' ih =>
    cases hH' : H' with
    | nil =>
      subst hH'
      simp only [List.cons_append, List.nil_append] at h
      have h2 : (!(a.toNat == 10 && lfChar.toNat == 10)) = true
          ∧ noLFrun [lfChar] = true := by
        simpa [noLFrun] using h
      have ha : a.toNat ≠ 10 := by
        intro hc
        simp [hc, lfChar] at h2
      simp only [List.cons_append, List.nil_append]
      rw [splitFirstBlankLine, if_neg (by simp [lfChar]; intro hc; exact absurd hc ha)]
      rfl
    | cons c H'' =>
      subst hH'
      simp only [List.cons_append] at h ⊢
      have h2 : (!(a.toNat == 10 && c.toNat == 10)) = true
          ∧ noLFrun (c :: (H'' ++ [lfChar])) = true := by
        simpa [noLFrun] using h
      have hac : ¬(a.toNat = 10 ∧ c.toNat = 10) := by
        intro hpq
        simp [hpq.1, hpq.2] at h2
      have ih2 := ih (by simp only [List.cons_append]; exact h2.2)
      simp only [List.cons_append] at ih2
      rw [splitFirstBlankLine, if_neg hac, ih2]

/-- Splitting at line feeds after a line-feed-free header line and its
terminator yields that line and the remaining split. -/
theorem splitLF_append (x y : List Char) (hx : noLF x = true) :
    splitLF (x ++ lfChar :: y) = x :: splitLF y := by
  induction x with
  | nil =>
    simp [splitLF, lfChar]
  | cons a x' ih =>
    simp only [noLF, List.all_cons, Bool.and_eq_true, Bool.not_eq_true',
      beq_eq_false_iff_ne, ne_eq] at hx
    have ih2 := ih (by simp [noLF, hx.2])
    simp only [List.cons_append]
    rw [splitLF, if_neg hx.1, ih2]

/-- A line-feed-free list splits into the single line it is. -/
theorem splitLF_noLF (x : List Char) (hx : noLF x = true) : splitLF x = [x] := by
  induction x with
  | nil => rfl
  | cons a x' ih =>
    simp only [noLF, List.all_cons, Bool.and_eq_true, Bool.not_eq_true',
      beq_eq_false_iff_ne, ne_eq] at hx
    have ih2 := ih (by simp [noLF, hx.2])
    rw [splitLF, if_neg hx.1, ih2]

/-- Unfolding of `joinLF` on a two-or-more-element list. -/
theorem joinLF_cons_cons (x y : List Char) (zs : List (List Char)) :
    joinLF (x :: y :: zs) = x ++ lfChar :: joinLF (y :: zs) := rfl

/-- Splitting a nonempty list into lines is nonempty. -/
theorem splitLinesLF_ne_nil (l : List Char) (h : l ≠ []) :
    splitLinesLF l ≠ [] := by
  cases l with
  | nil => exact absurd rfl h
  | cons c rest =>
    rw [splitLinesLF]
    by_cases hc : c.toNat = 10
    · simp [hc]
    · rw [if_neg hc]
      cases splitLinesLF rest <;> simp

/-- The stored payload of a body with a nonempty tail is built headfirst. -/
theorem encodeTextPayload_cons (c : Char) (rest : List Char) (h : rest ≠ []) :
    encodeTextPayload (c :: rest) = c :: encodeTextPayload rest := by
  unfold encodeTextPayload
  rw [splitLinesLF]
  by_cases hc : c.toNat = 10
  · rw [if_pos hc]
    obtain ⟨y, zs, hyz⟩ : ∃ y zs, splitLinesLF rest = y :: zs := by
      cases hsp : splitLinesLF rest with
      | nil => exact absurd hsp (splitLinesLF_ne_nil rest h)
      | cons y zs => exact ⟨y, zs, rfl⟩
    rw [hyz, joinLF_cons_cons]
    have hcc : c = lfChar := by
      rw [← Char.ofNat_toNat c, hc]
      rfl
    simp [hcc]
  · rw [if_neg hc]
    cases hsp : splitLinesLF rest with
    | nil => exact absurd hsp (splitLinesLF_ne_nil rest h)
    | cons y zs =>
      cases zs with
      | nil => simp [joinLF]
      | cons z zs' => simp [joinLF_cons_cons]

/-- The stored payload is the body itself when the body ends in a newline,
and the body with one newline appended otherwise. -/
theorem encodeTextPayload_eq (l : List Char) :
    encodeTextPayload l =
      if l.getLast? = some lfChar then l else l ++ [lfChar] := by
  induction l with
  | nil => rfl
  | cons c rest ih =>
    cases hr : rest with
    | nil =>
      by_cases hc : c.toNat = 10
      · have hcc : c = lfChar := by
          rw [← Char.ofNat_toNat c, hc]
          rfl
        subst hcc
        rfl
      · have hcc : c ≠ lfChar := by
          intro hcc
          subst hcc
          exact hc rfl
        unfold encodeTextPayload splitLinesLF
        rw [if_neg hc]
        simp [splitLinesLF, joinLF, List.getLast?_singleton, hcc]
    | cons d rest' =>
      subst hr
      rw [encodeTextPayload_cons c _ (by simp), ih, List.getLast?_cons_cons]
      by_cases hlast : (d :: rest').getLast? = some lfChar
      · simp [hlast]
      · simp [hlast]

/-- A list starts with itself followed by anything. -/
theorem leadsWith_append (p rest : List Char) : leadsWith p (p ++ rest) = true := by
  induction p with
  | nil => rfl
  | cons c ps ih => simp [leadsWith, ih]

/-- Absence of line feeds distributes over append. -/
theorem noLF_append (x y : List Char) :
    noLF (x ++ y) = (noLF x && noLF y) := by
  simp [noLF, List.all_append]

/-- The header block of a draft message (terminated by its line feed) never
has two consecutive line feeds, given line-feed-free To and Subject values. -/
theorem mimeHeader_noLFrun (toAddr subject : String)
    (hto : noLF toAddr.data = true) (hsub : noLF subject.data = true) :
    noLFrun (mimeHeaderChars toAddr subject ++ [lfChar]) = true := by
  have h5 : noLFrun ((("Subject: ").data ++ subject.data) ++ [lfChar]) = true := by
    apply noLFrun_append_noLF
    · rw [noLF_append, hsub]
      decide
    · rfl
  have h4 : noLFrun ((("To: ").data ++ toAddr.data) ++
      lfChar :: ((("Subject: ").data ++ subject.data) ++ [lfChar])) = true := by
    apply noLFrun_line_append
    · rw [noLF_append, hto]
      decide
    · exact h5
    · rfl
  have h3 : noLFrun (("MIME-Version: 1.0").data ++
      lfChar :: ((("To: ").data ++ toAddr.data) ++
        lfChar :: ((("Subject: ").data ++ subject.data) ++ [lfChar]))) = true := by
    apply noLFrun_line_append
    · decide
    · exact h4
    · rfl
  have h2 : noLFrun (("Content-Transfer-Encoding: 7bit").data ++
      lfChar :: (("MIME-Version: 1.0").data ++
        lfChar :: ((("To: ").data ++ toAddr.data) ++
          lfChar :: ((("Subject: ").data ++ subject.data) ++ [lfChar])))) = true := by
    apply noLFrun_line_append
    · decide
    · exact h3
    · rfl
  have h1 : noLFrun (("Content-Type: text/plain; charset=\"utf-8\"").data ++
      lfChar :: (("Content-Transfer-Encoding: 7bit").data ++
        lfChar :: (("MIME-Version: 1.0").data ++
          lfChar :: ((("To: ").data ++ toAddr.data) ++
            lfChar :: ((("Subject: ").data ++ subject.data) ++ [lfChar]))))) = true := by
    apply noLFrun_line_append
    · decide
    · exact h2
    · rfl
  unfold mimeHeaderChars
  simpa [List.append_assoc, List.cons_append] using h1

/-- Parsing the serialised draft message recovers the To address, the Subject
line, and the stored payload, whenever To and Subject are line-feed-free. -/
theorem parseMime_draftMime (toAddr subject body : String)
    (hto : noLF toAddr.data = true) (hsub : noLF subject.data = true) :
    parseMimeMessage (String.mk (draftMimeChars toAddr subject body)) =
      some (toAddr, subject, String.mk (encodeTextPayload body.data)) := by
  have hsplit : splitFirstBlankLine (draftMimeChars toAddr subject body) =
      some (mimeHeaderChars toAddr subject, encodeTextPayload body.data) :=
    splitFirstBlankLine_append _ _ (mimeHeader_noLFrun toAddr subject hto hsub)
  have hlines : splitLF (mimeHeaderChars toAddr subject) =
      [("Content-Type: text/plain; charset=\"utf-8\"").data,
       ("Content-Transfer-Encoding: 7bit").data,
       ("MIME-Version: 1.0").data,
       ("To: ").data ++ toAddr.data,
       ("Subject: ").data ++ subject.data] := by
    unfold mimeHeaderChars
    rw [splitLF_append _ _ (by decide), splitLF_append _ _ (by decide),
      splitLF_append _ _ (by decide),
      splitLF_append _ _ (by rw [noLF_append, hto]; decide),
      splitLF_noLF _ (by rw [noLF_append, hsub]; decide)]
  have hTo : findHeaderVal (("To: ").data) [("Content-Type: text/plain; charset=\"utf-8\"").data,
       ("Content-Transfer-Encoding: 7bit").data,
       ("MIME-Version: 1.0").data,
       ("To: ").data ++ toAddr.data,
       ("Subject: ").data ++ subject.data] = some toAddr.data := by
    rw [findHeaderVal, if_neg (by decide), findHeaderVal, if_neg (by decide),
      findHeaderVal, if_neg (by decide), findHeaderVal,
      if_pos (leadsWith_append _ _), List.drop_left]
  have hSubj : findHeaderVal (("Subject: ").data) [("Content-Type: text/plain; charset=\"utf-8\"").data,
       ("Content-Transfer-Encoding: 7bit").data,
       ("MIME-Version: 1.0").data,
       ("To: ").data ++ toAddr.data,
       ("Subject: ").data ++ subject.data] = some subject.data := by
    have hnotTo : leadsWith (("Subject: ").data) ((("To: ").data ++ toAddr.data)) = false := rfl
    rw [findHeaderVal, if_neg (by decide), findHeaderVal, if_neg (by decide),
      findHeaderVal, if_neg (by decide), findHeaderVal, if_neg (ne_true_of_eq_false hnotTo),
      findHeaderVal, if_pos (leadsWith_append _ _), List.drop_left]
  unfold parseMimeMessage
  rw [show (String.mk (draftMimeChars toAddr subject body)).data
      = draftMimeChars toAddr subject body from rfl, hsplit]
  simp only [hlines, hTo, hSubj, stringMkData]

/-- A valid header value has no line feed. -/
theorem headerValueOk_noLF (s : String) (h : headerValueOk s = true) :
    noLF s.data = true := by
  simp only [headerValueOk, List.all_eq_true, Bool.and_eq_true,
    decide_eq_true_eq, Bool.not_eq_true', beq_eq_false_iff_ne, ne_eq] at h
  simp only [noLF, List.all_eq_true, Bool.not_eq_true', beq_eq_false_iff_ne, ne_eq]
  intro c hc
  exact (h c hc).1.2

/-- A valid header value is ASCII. -/
theorem headerValueOk_ascii (s : String) (h : headerValueOk s = true) :
    asciiStr s = true := by
  simp only [headerValueOk, List.all_eq_true, Bool.and_eq_true,
    decide_eq_true_eq, Bool.not_eq_true', beq_eq_false_iff_ne, ne_eq] at h
  simp only [asciiStr, List.all_eq_true, decide_eq_true_eq]
  intro c hc
  exact (h c hc).1.1

/-- Valid body text is ASCII. -/
theorem bodyTextOk_ascii (s : String) (h : bodyTextOk s = true) :
    asciiStr s = true := by
  simp only [bodyTextOk, List.all_eq_true, Bool.and_eq_true,
    decide_eq_true_eq, Bool.not_eq_true', beq_eq_false_iff_ne, ne_eq] at h
  simp only [asciiStr, List.all_eq_true, decide_eq_true_eq]
  intro c hc
  exact (h c hc).1

/-- The serialised draft message is ASCII when its inputs are. -/
theorem draftMimeChars_ascii (toAddr subject body : String)
    (h1 : asciiStr toAddr = true) (h2 : asciiStr subject = true)
    (h3 : asciiStr body = true) :
    ∀ c ∈ draftMimeChars toAddr subject body, c.toNat < 128 := by
  simp only [asciiStr, List.all_eq_true, decide_eq_true_eq] at h1 h2 h3
  have hlit1 : ∀ c ∈ ("Content-Type: text/plain; charset=\"utf-8\"").data,
      c.toNat < 128 := by decide
  have hlit2 : ∀ c ∈ ("Content-Transfer-Encoding: 7bit").data, c.toNat < 128 := by decide
  have hlit3 : ∀ c ∈ ("MIME-Version: 1.0").data, c.toNat < 128 := by decide
  have hlit4 : ∀ c ∈ ("To: ").data, c.toNat < 128 := by decide
  have hlit5 : ∀ c ∈ ("Subject: ").data, c.toNat < 128 := by decide
  intro c hc
  rcases List.mem_append.mp hc with h | h
  · unfold mimeHeaderChars at h
    rcases List.mem_append.mp h with h | h
    · exact hlit1 c h
    rcases List.mem_cons.mp h with rfl | h
    · decide
    rcases List.mem_append.mp h with h | h
    · exact hlit2 c h
    rcases List.mem_cons.mp h with rfl | h
    · decide
    rcases List.mem_append.mp h with h | h
    · exact hlit3 c h
    rcases List.mem_cons.mp h with rfl | h
    · decide
    rcases List.mem_append.mp h with h | h
    · rcases List.mem_append.mp h with h | h
      · exact hlit4 c h
      · exact h1 c h
    rcases List.mem_cons.mp h with rfl | h
    · decide
    rcases List.mem_append.mp h with h | h
    · exact hlit5 c h
    · exact h2 c h
  · rcases List.mem_cons.mp h with rfl | h
    · decide
    rcases List.mem_cons.mp h with rfl | h
    · decide
    rw [encodeTextPayload_eq] at h
    split at h
    · exact h3 c h
    · rcases List.mem_append.mp h with h | h
      · exact h3 c h
      · rcases List.mem_cons.mp h with rfl | h
        · decide
        · cases h

/-! ## Claim C8 -/

/-- C8 (counterexample): the round trip is NOT exact for every body: for
to="a@b.c", subject="s", body="hi", base64url-decoding the produced raw
message and parsing it as MIME yields body content "hi\n", not "hi" — the
serialisation appends a newline to a body that does not end in one. -/
theorem draft_roundtrip_exact_fails :
    (urlsafeB64decode (gmailDraftRaw "a@b.c" "s" "hi")).map
        (fun bs => parseMimeMessage (String.mk (bytesToChars bs)))
      = .ok (some ("a@b.c", "s", "hi\n"))
    ∧ ("hi\n" : String) ≠ "hi" := by
  constructor
  · rfl
  · decide

/-- C8 (amended): for every ASCII CR-free to/subject/body with no newline in
to or subject, the raw message submitted by `gmail_create_draft` is a
draft-create request (never a send); base64url-decoding its raw text recovers
the serialised MIME bytes exactly; parsing them yields back the same To
address and Subject line, and the body content up to the final newline the
serialisation guarantees: unchanged when the body already ends in a newline,
and with exactly one newline appended otherwise. -/
theorem draft_roundtrip_amended (toAddr subject body : String)
    (hto : headerValueOk toAddr = true) (hsub : headerValueOk subject = true)
    (hbody : bodyTextOk body = true) :
    gmailCreateDraftRequest toAddr subject body
        = GmailAction.draftCreate (gmailDraftRaw toAddr subject body)
    ∧ urlsafeB64decode (gmailDraftRaw toAddr subject body)
        = .ok (charsToBytes (draftMimeChars toAddr subject body))
    ∧ bytesToChars (charsToBytes (draftMimeChars toAddr subject body))
        = draftMimeChars toAddr subject body
    ∧ parseMimeMessage (String.mk (draftMimeChars toAddr subject body))
        = some (toAddr, subject, String.mk (encodeTextPayload body.data))
    ∧ (body.data.getLast? = some lfChar →
        String.mk (encodeTextPayload body.data) = body)
    ∧ (body.data.getLast? ≠ some lfChar →
        String.mk (encodeTextPayload body.data) = body ++ "\n") := by
  have hascii : ∀ c ∈ draftMimeChars toAddr subject body, c.toNat < 128 :=
    draftMimeChars_ascii toAddr subject body
      (headerValueOk_ascii toAddr hto) (headerValueOk_ascii subject hsub)
      (bodyTextOk_ascii body hbody)
  refine ⟨rfl, ?_, ?_, ?_, ?_, ?_⟩
  · exact urlsafeB64_roundtrip _ (charsToBytes_lt _ hascii)
  · exact bytesToChars_charsToBytes _ hascii
  · exact parseMime_draftMime toAddr subject body
      (headerValueOk_noLF toAddr hto) (headerValueOk_noLF subject hsub)
  · intro hend
    rw [encodeTextPayload_eq, if_pos hend, stringMkData]
  · intro hend
    rw [encodeTextPayload_eq, if_neg hend]
    cases body with
    | mk d => rfl

/-- C8 (witness): a concrete instantiation of the amended round trip. -/
theorem draft_roundtrip_amended_witness :
    headerValueOk "a@b.c" = true ∧ bodyTextOk "line1\nline2" = true ∧
    parseMimeMessage (String.mk (draftMimeChars "a@b.c" "Hi" "line1\nline2"))
      = some ("a@b.c", "Hi", "line1\nline2" ++ "\n") := by
  have h := draft_roundtrip_amended "a@b.c" "Hi" "line1\nline2"
    (by decide) (by decide) (by decide)
  refine ⟨by decide, by decide, ?_⟩
  rw [h.2.2.2.1, h.2.2.2.2.2 (by decide)]

/-! ## Claims C4, C5: parse_email_body -/

/-- The part scan returns the first matching part when everything before it
carries a non-matching MIME type. -/
theorem findTextPart_first (pre : List Payload) (q : Payload) (rest : List Payload)
    (hpre : ∀ r ∈ pre, ∃ m, r.mimeType = some m ∧ m ≠ "text/html" ∧ m ≠ "text/plain")
    (mq : String) (hq : q.mimeType = some mq)
    (hmq : mq = "text/html" ∨ mq = "text/plain") :
    findTextPart (pre ++ q :: rest) = .ok (some q) := by
  induction pre with
  | nil =>
    simp only [List.nil_append, findTextPart, pyGet, hq]
    simp [Bind.bind, Except.bind, if_pos hmq]
  | cons r pre' ih =>
    obtain ⟨m, hm, hm1, hm2⟩ := hpre r (by simp)
    have ih2 := ih (fun x hx => hpre x (by simp [hx]))
    simp only [List.cons_append, findTextPart, pyGet, hm]
    simp only [Bind.bind, Except.bind]
    rw [if_neg (by simp [hm1, hm2])]
    exact ih2

/-- The part scan finds nothing when every part carries a non-matching MIME
type. -/
theorem findTextPart_none (parts : List Payload)
    (hparts : ∀ r ∈ parts, ∃ m, r.mimeType = some m ∧ m ≠ "text/html" ∧ m ≠ "text/plain") :
    findTextPart parts = .ok none := by
  induction parts with
  | nil => rfl
  | cons r pre' ih =>
    obtain ⟨m, hm, hm1, hm2⟩ := hparts r (by simp)
    have ih2 := ih (fun x hx => hparts x (by simp [hx]))
    simp only [findTextPart, pyGet, hm]
    simp only [Bind.bind, Except.bind]
    rw [if_neg (by simp [hm1, hm2])]
    exact ih2

/-- C4: `parse_email_body` returns (i) for a `multipart/alternative` or
`multipart/mixed` payload, the decoded and HTML-escaped body of the first
immediate child part (in given order) whose MIME type is `text/html` or
`text/plain`; (ii) for a non-multipart payload, the decoded top-level body;
(iii) for a multipart payload none of whose children matches, also the
decoded top-level body — whenever the accessed fields are present and the
base64 decoding succeeds. -/
theorem parse_email_body_extraction :
    (∀ (p : Payload) (mt : String) (parts pre : List Payload) (q : Payload)
        (rest : List Payload) (mq : String) (bd : BodyRec) (d s : String),
      p.mimeType = some mt →
      (mt = "multipart/alternative" ∨ mt = "multipart/mixed") →
      p.parts = some parts →
      parts = pre ++ q :: rest →
      (∀ r ∈ pre, ∃ m, r.mimeType = some m ∧ m ≠ "text/html" ∧ m ≠ "text/plain") →
      q.mimeType = some mq →
      (mq = "text/html" ∨ mq = "text/plain") →
      q.body = some bd → bd.data = some d → decode_mail_body d = .ok s →
      parse_email_body p = .ok s)
    ∧ (∀ (p : Payload) (mt : String) (bd : BodyRec) (d s : String),
      p.mimeType = some mt →
      ¬(mt = "multipart/alternative" ∨ mt = "multipart/mixed") →
      p.body = some bd → bd.data = some d → decode_mail_body d = .ok s →
      parse_email_body p = .ok s)
    ∧ (∀ (p : Payload) (mt : String) (parts : List Payload) (bd : BodyRec) (d s : String),
      p.mimeType = some mt →
      (mt = "multipart/alternative" ∨ mt = "multipart/mixed") →
      p.parts = some parts →
      (∀ r ∈ parts, ∃ m, r.mimeType = some m ∧ m ≠ "text/html" ∧ m ≠ "text/plain") →
      p.body = some bd → bd.data = some d → decode_mail_body d = .ok s →
      parse_email_body p = .ok s) := by
  refine ⟨?_, ?_, ?_⟩
  · intro p mt parts pre q rest mq bd d s hmt hmulti hparts hsplit hpre hq hmq hbd hd hdec
    have hfind : findTextPart parts = .ok (some q) := by
      rw [hsplit]
      exact findTextPart_first pre q rest hpre mq hq hmq
    have htry : parseEmailBodyTry p = .ok s := by
      simp only [parseEmailBodyTry, pyGet, hmt, hparts, Bind.bind, Except.bind]
      rw [if_pos hmulti]
      simp only [hfind, hbd, hd, pyGet, hdec]
    simp [parse_email_body, htry]
  · intro p mt bd d s hmt hmulti hbd hd hdec
    have htry : parseEmailBodyTry p = .ok s := by
      simp only [parseEmailBodyTry, pyGet, hmt, Bind.bind, Except.bind]
      rw [if_neg hmulti]
      simp only [hbd, hd, pyGet, hdec]
    simp [parse_email_body, htry]
  · intro p mt parts bd d s hmt hmulti hparts hnone hbd hd hdec
    have hfind : findTextPart parts = .ok none := findTextPart_none parts hnone
    have htry : parseEmailBodyTry p = .ok s := by
      simp only [parseEmailBodyTry, pyGet, hmt, hparts, Bind.bind, Except.bind]
      rw [if_pos hmulti]
      simp only [hfind, hbd, hd, pyGet, hdec]
    simp [parse_email_body, htry]

/-- C4 (witness): the spec's concrete scenario — a `multipart/alternative`
payload with parts `[text/plain, text/html]` (contents "hi" and "yo",
base64-encoded) yields the plain part's decoded content, first match wins. -/
theorem parse_email_body_extraction_witness :
    decode_mail_body "aGk=" = .ok "hi" ∧
    parse_email_body (Payload.mk (some "multipart/alternative") []
      (some [Payload.mk (some "text/plain") [] none (some ⟨some "aGk="⟩),
             Payload.mk (some "text/html") [] none (some ⟨some "eW8="⟩)])
      none) = .ok "hi" := by
  constructor
  · rfl
  · exact parse_email_body_extraction.1
      (Payload.mk (some "multipart/alternative") []
        (some [Payload.mk (some "text/plain") [] none (some ⟨some "aGk="⟩),
               Payload.mk (some "text/html") [] none (some ⟨some "eW8="⟩)])
        none)
      "multipart/alternative"
      [Payload.mk (some "text/plain") [] none (some ⟨some "aGk="⟩),
       Payload.mk (some "text/html") [] none (some ⟨some "eW8="⟩)]
      [] (Payload.mk (some "text/plain") [] none (some ⟨some "aGk="⟩))
      [Payload.mk (some "text/html") [] none (some ⟨some "eW8="⟩)]
      "text/plain" ⟨some "aGk="⟩ "aGk=" "hi"
      rfl (Or.inl rfl) rfl rfl (by intro r hr; cases hr) rfl (Or.inr rfl)
      rfl rfl rfl

/-- Shared helper: the catch-all handlers make `parse_email_body` total. -/
theorem parse_email_body_isOk (p : Payload) : ∃ s, parse_email_body p = .ok s := by
  unfold parse_email_body
  cases h : parseEmailBodyTry p with
  | ok s => exact ⟨s, rfl⟩
  | error e => cases e <;> simp

/-- C5: `parse_email_body` never raises: every exception of the body
extraction is caught, and a decoding failure (`ValueError`, the class of
`binascii.Error`) or a missing field (`KeyError`) is rendered as a
descriptive error string returned in place of the body. -/
theorem parse_email_body_never_raises :
    (∀ p : Payload, ∃ s, parse_email_body p = .ok s)
    ∧ (∀ (p : Payload) (m : String), parseEmailBodyTry p = .error (.valueError m) →
        parse_email_body p = .ok ("Error decoding email body: " ++ m))
    ∧ (∀ (p : Payload) (k : String), parseEmailBodyTry p = .error (.keyError k) →
        parse_email_body p = .ok ("Error parsing email body: " ++ k)) := by
  refine ⟨parse_email_body_isOk, ?_, ?_⟩
  · intro p m h
    simp [parse_email_body, h]
  · intro p k h
    simp [parse_email_body, h]

/-- C5 (witness): a payload whose body data is malformed base64 ("YQ=")
makes the extraction raise `ValueError`, and `parse_email_body` returns the
descriptive error string instead of raising. -/
theorem parse_email_body_never_raises_witness :
    parseEmailBodyTry (Payload.mk (some "text/plain") [] none (some ⟨some "YQ="⟩))
      = .error (.valueError "Incorrect padding")
    ∧ parse_email_body (Payload.mk (some "text/plain") [] none (some ⟨some "YQ="⟩))
      = .ok ("Error decoding email body: " ++ "Incorrect padding") := by
  constructor
  · rfl
  · exact parse_email_body_never_raises.2.1
      (Payload.mk (some "text/plain") [] none (some ⟨some "YQ="⟩))
      "Incorrect padding" rfl

/-! ## Claim C7: header extraction -/

/-- C7: header extraction matches names exactly (hence case-sensitively):
when no header's name equals the requested name the result is the empty
string, and otherwise the value of the first exactly-matching header is
returned. -/
theorem get_header_value_spec :
    (∀ (hs : List EmailHeader) (n : String),
      (∀ h ∈ hs, h.name ≠ n) → get_header_value hs n = "")
    ∧ (∀ (pre : List EmailHeader) (h : EmailHeader) (post : List EmailHeader) (n : String),
      (∀ h2 ∈ pre, h2.name ≠ n) → h.name = n →
      get_header_value (pre ++ h :: post) n = h.value) := by
  constructor
  · intro hs n hnone
    induction hs with
    | nil => rfl
    | cons h hs' ih =>
      have h1 : h.name ≠ n := hnone h (by simp)
      have ih2 := ih (fun x hx => hnone x (by simp [hx]))
      simp only [get_header_value, List.find?] at ih2 ⊢
      rw [show (h.name == n) = false by simpa using h1]
      exact ih2
  · intro pre h post n hpre hname
    induction pre with
    | nil =>
      simp only [List.nil_append, get_header_value, List.find?]
      rw [show (h.name == n) = true by simpa using hname]
    | cons h2 pre' ih =>
      have h1 : h2.name ≠ n := hpre h2 (by simp)
      have ih2 := ih (fun x hx => hpre x (by simp [hx]))
      simp only [List.cons_append, get_header_value, List.find?] at ih2 ⊢
      rw [show (h2.name == n) = false by simpa using h1]
      exact ih2

/-- C7 (witness): a header differing only in case yields the empty string;
the first exact match wins. -/
theorem get_header_value_spec_witness :
    get_header_value [⟨"subject", "x"⟩] "Subject" = ""
    ∧ get_header_value [⟨"From", "a"⟩, ⟨"From", "b"⟩] "From" = "a" := by
  constructor
  · exact get_header_value_spec.1 [⟨"subject", "x"⟩] "Subject" (by decide)
  · exact get_header_value_spec.2 [] ⟨"From", "a"⟩ [⟨"From", "b"⟩] "From"
      (by intro h2 hh; cases hh) rfl

/-! ## Lemmas: calendar aggregation (C2, C3) -/

/-- Python string `<` is asymmetric. -/
theorem strLtB_asymm : ∀ a b : List Char, strLtB a b = true → strLtB b a = false
  | [], [] => by simp [strLtB]
  | [], _ :: _ => by simp [strLtB]
  | _ :: _, [] => by simp [strLtB]
  | a :: as, b :: bs => by
    simp only [strLtB]
    by_cases h1 : a.toNat < b.toNat
    · intro _
      rw [if_neg (by omega), if_neg (by omega)]
    · rw [if_neg h1]
      by_cases h2 : a.toNat = b.toNat
      · rw [if_pos h2, if_neg (by omega), if_pos (by omega)]
        exact strLtB_asymm as bs
      · rw [if_neg h2]
        intro h
        cases h

/-- Python string not-less-than is transitive. -/
theorem strLtB_nlt_trans : ∀ a b c : List Char,
    strLtB a b = false → strLtB b c = false → strLtB a c = false
  | [], b, c => by
    cases b with
    | nil =>
      cases c with
      | nil => intro _ _; rfl
      | cons z zs => intro _ h2; cases h2
    | cons y ys => intro h1; cases h1
  | x :: xs, b, c => by
    cases c with
    | nil => intro _ _; rfl
    | cons z zs =>
      cases b with
      | nil => intro _ h2; cases h2
      | cons y ys =>
        simp only [strLtB]
        intro h1 h2
        have hxy : ¬ x.toNat < y.toNat := by
          by_contra hc
          rw [if_pos hc] at h1
          cases h1
        have hyz : ¬ y.toNat < z.toNat := by
          by_contra hc
          rw [if_pos hc] at h2
          cases h2
        rw [if_neg (by omega)]
        by_cases hxz : x.toNat = z.toNat
        · rw [if_pos hxz]
          have hx_y : x.toNat = y.toNat := by omega
          have hy_z : y.toNat = z.toNat := by omega
          rw [if_neg hxy, if_pos hx_y] at h1
          rw [if_neg hyz, if_pos hy_z] at h2
          exact strLtB_nlt_trans xs ys zs h1 h2
        · rw [if_neg hxz]

instance : IsTotal CalEvent calLE := by
  constructor
  intro a b
  unfold calLE pyStrLE
  by_cases h : strLtB b.start.data a.start.data = true
  · right
    simp [strLtB_asymm _ _ h]
  · left
    simp [Bool.not_eq_true] at h
    simp [h]

instance : IsTrans CalEvent calLE := by
  constructor
  intro a b c h1 h2
  unfold calLE pyStrLE at h1 h2 ⊢
  have h1' : strLtB b.start.data a.start.data = false := by
    cases hb : strLtB b.start.data a.start.data
    · rfl
    · rw [hb] at h1
      cases h1
  have h2' : strLtB c.start.data b.start.data = false := by
    cases hb : strLtB c.start.data b.start.data
    · rfl
    · rw [hb] at h2
      cases h2
  rw [strLtB_nlt_trans c.start.data b.start.data a.start.data h2' h1']
  rfl

/-- The output loop of `get_user_events` renders the next `n` events from
index `i` when they exist. -/
theorem calOutLoop_ok (evts : List CalEvent) :
    ∀ (n i : Nat) (out : String), i + n ≤ evts.length →
      calOutLoop evts n i out = .ok (out ++ formatEvents ((evts.drop i).take n)) := by
  intro n
  induction n with
  | zero =>
    intro i out h
    simp [calOutLoop, formatEvents]
  | succ n ih =>
    intro i out h
    have hi : i < evts.length := by omega
    have hstep := ih (i + 1) (out ++ calendarFormat evts[i].start evts[i].summary evts[i].calendar) (by omega)
    rw [calOutLoop, List.getElem?_eq_getElem hi]
    refine hstep.trans ?_
    have hdrop : evts.drop i = evts[i] :: evts.drop (i + 1) :=
      (List.getElem_cons_drop evts i hi).symm
    rw [hdrop, List.take_succ_cons, formatEvents, ← String.append_assoc]

/-- The output loop raises `IndexError` when fewer events than requested
remain. -/
theorem calOutLoop_err (evts : List CalEvent) :
    ∀ (n i : Nat) (out : String), i ≤ evts.length → evts.length < i + n →
      calOutLoop evts n i out = .error .indexError := by
  intro n
  induction n with
  | zero =>
    intro i out h1 h2
    omega
  | succ n ih =>
    intro i out h1 h2
    by_cases hi : i < evts.length
    · rw [calOutLoop, List.getElem?_eq_getElem hi]
      exact ih (i + 1) _ (by omega) (by omega)
    · have : evts.length ≤ i := by omega
      rw [calOutLoop, List.getElem?_eq_none this]

/-- The event accumulation loop concatenates the per-calendar results in
order. -/
theorem eventListOf_eq_merged (cals : List Calendar) (n : Nat) :
    eventListOf cals n = mergedEvents cals n := by
  suffices h : ∀ init : List CalEvent,
      cals.foldl (fun acc cal => acc ++ get_cal_evts cal n) init
        = init ++ (cals.map (fun c => (c.events.take n).map mkCalEvent)).flatten by
    simpa [eventListOf, mergedEvents] using h []
  induction cals with
  | nil => intro init; simp
  | cons c cals' ih =>
    intro init
    simp only [List.foldl_cons, List.map_cons, List.flatten_cons, ih,
      List.append_assoc]
    rfl

/-! ## Claims C2, C3: get_user_events -/

/-- C2: with enough events available, `get_user_events` returns, inside the
envelope, exactly the first `total_count` records of the per-calendar capped
fetches concatenated without deduplication and stably sorted ascending by the
start string; the sorted list is a permutation of the merged union and is
sorted under the Python string order; and each event maps `start` to
`dateTime`-else-`date` and its calendar label to the organizer's display name
else the organizer's email. -/
theorem get_user_events_spec (valves : Valves) (cals : List Calendar)
    (now : String) (n : Nat)
    (h : n ≤ (mergedEvents cals n).length) :
    get_user_events (some ()) valves
        { calendars := cals, fail := none, now := now } (n : Int)
      = .ok (mainFormat (calDesc (n : Int) now)
          ("<events>" ++ formatEvents ((specSortedEvents cals n).take n) ++ "</events>"))
    ∧ (specSortedEvents cals n).Perm (mergedEvents cals n)
    ∧ List.Sorted calLE (specSortedEvents cals n)
    ∧ (∀ e : RawEvent,
        (∀ s, e.startDateTime = some s → (mkCalEvent e).start = s)
        ∧ (e.startDateTime = none → (mkCalEvent e).start = e.startDate)
        ∧ (∀ s, e.organizerDisplayName = some s → (mkCalEvent e).calendar = s)
        ∧ (e.organizerDisplayName = none → (mkCalEvent e).calendar = e.organizerEmail)) := by
  have hne : ¬((n : Int) = -1) := by omega
  have htonat : ((n : Int)).toNat = n := Int.toNat_natCast n
  have hsorted_eq : ∀ m : Nat, sortedEventList cals m = specSortedEvents cals m := by
    intro m
    rw [sortedEventList, eventListOf_eq_merged]
    rfl
  have hsortlen : n ≤ (specSortedEvents cals n).length := by
    rw [specSortedEvents, (List.perm_insertionSort calLE (mergedEvents cals n)).length_eq]
    exact h
  have hloop := calOutLoop_ok (specSortedEvents cals n) n 0 "" (by omega)
  refine ⟨?_, List.perm_insertionSort calLE _, List.sorted_insertionSort calLE _, ?_⟩
  · simp only [get_user_events, awaitEmitter, if_neg hne, getUserEventsTry,
      htonat, hsorted_eq, Bind.bind, Except.bind]
    rw [hloop]
    simp only [List.drop_zero]
    rfl
  · intro e
    refine ⟨?_, ?_, ?_, ?_⟩
    · intro s hs
      simp [mkCalEvent, hs]
    · intro hs
      simp [mkCalEvent, hs]
    · intro s hs
      simp [mkCalEvent, hs]
    · intro hs
      simp [mkCalEvent, hs]

/-- C2 (witness): the spec's merge scenario — calendar A with events at T+1h
and T+3h, calendar B with one at T+2h; requesting 3 returns them in start
order with per-source labels. -/
theorem get_user_events_spec_witness :
    3 ≤ (mergedEvents
      [⟨"A", [⟨some "2025-01-01T11:00:00Z", "", "e1", some "A", "a@x"⟩,
              ⟨some "2025-01-01T13:00:00Z", "", "e3", some "A", "a@x"⟩]⟩,
       ⟨"B", [⟨some "2025-01-01T12:00:00Z", "", "e2", some "B", "b@x"⟩]⟩] 3).length
    ∧ (specSortedEvents
      [⟨"A", [⟨some "2025-01-01T11:00:00Z", "", "e1", some "A", "a@x"⟩,
              ⟨some "2025-01-01T13:00:00Z", "", "e3", some "A", "a@x"⟩]⟩,
       ⟨"B", [⟨some "2025-01-01T12:00:00Z", "", "e2", some "B", "b@x"⟩]⟩] 3).map
        (fun e => (e.start, e.calendar))
      = [("2025-01-01T11:00:00Z", "A"), ("2025-01-01T12:00:00Z", "B"),
         ("2025-01-01T13:00:00Z", "A")]
    ∧ get_user_events (some ()) {}
        { calendars :=
            [⟨"A", [⟨some "2025-01-01T11:00:00Z", "", "e1", some "A", "a@x"⟩,
                    ⟨some "2025-01-01T13:00:00Z", "", "e3", some "A", "a@x"⟩]⟩,
             ⟨"B", [⟨some "2025-01-01T12:00:00Z", "", "e2", some "B", "b@x"⟩]⟩],
          fail := none, now := "T0" } (3 : Int)
      = .ok (mainFormat (calDesc (3 : Int) "T0")
          ("<events>" ++ formatEvents ((specSortedEvents
            [⟨"A", [⟨some "2025-01-01T11:00:00Z", "", "e1", some "A", "a@x"⟩,
                    ⟨some "2025-01-01T13:00:00Z", "", "e3", some "A", "a@x"⟩]⟩,
             ⟨"B", [⟨some "2025-01-01T12:00:00Z", "", "e2", some "B", "b@x"⟩]⟩] 3).take 3)
            ++ "</events>")) := by
  refine ⟨by decide, by decide, ?_⟩
  have hn : ((3 : Nat) : Int) = (3 : Int) := rfl
  have h := (get_user_events_spec {}
    [⟨"A", [⟨some "2025-01-01T11:00:00Z", "", "e1", some "A", "a@x"⟩,
            ⟨some "2025-01-01T13:00:00Z", "", "e3", some "A", "a@x"⟩]⟩,
     ⟨"B", [⟨some "2025-01-01T12:00:00Z", "", "e2", some "B", "b@x"⟩]⟩]
    "T0" 3 (by decide)).1
  exact h

/-- C3: when the total number of events available across all calendars is
strictly less than the requested count, `get_user_events` raises the
`IndexError` to its caller (only `HttpError` is caught) instead of returning
a partial or empty list. -/
theorem get_user_events_overflow (valves : Valves) (cals : List Calendar)
    (now : String) (n : Nat)
    (h : (cals.map (fun c => c.events.length)).sum < n) :
    get_user_events (some ()) valves
        { calendars := cals, fail := none, now := now } (n : Int)
      = .error .indexError := by
  have hne : ¬((n : Int) = -1) := by omega
  have htonat : ((n : Int)).toNat = n := Int.toNat_natCast n
  have hsorted_eq : ∀ m : Nat, sortedEventList cals m = specSortedEvents cals m := by
    intro m
    rw [sortedEventList, eventListOf_eq_merged]
    rfl
  have hlen : (mergedEvents cals n).length ≤ (cals.map (fun c => c.events.length)).sum := by
    rw [mergedEvents, List.length_flatten, List.map_map]
    apply List.sum_le_sum
    intro c hc
    simp [List.length_take]
  have hsortlen : (specSortedEvents cals n).length < n := by
    rw [specSortedEvents, (List.perm_insertionSort calLE (mergedEvents cals n)).length_eq]
    omega
  have hloop := calOutLoop_err (specSortedEvents cals n) n 0 "" (by omega) (by omega)
  simp only [get_user_events, awaitEmitter, if_neg hne, getUserEventsTry,
    htonat, hsorted_eq, Bind.bind, Except.bind]
  rw [hloop]

/-- C3 (witness): one calendar with a single event, requesting two, raises
`IndexError`. -/
theorem get_user_events_overflow_witness :
    (([⟨"A", [⟨some "2025-01-01T11:00:00Z", "", "e1", some "A", "a@x"⟩]⟩] :
        List Calendar).map (fun c => c.events.length)).sum < 2
    ∧ get_user_events (some ()) {}
        { calendars := [⟨"A", [⟨some "2025-01-01T11:00:00Z", "", "e1", some "A", "a@x"⟩]⟩],
          fail := none, now := "T0" } (2 : Int)
      = .error .indexError := by
  refine ⟨by decide, ?_⟩
  exact get_user_events_overflow {}
    [⟨"A", [⟨some "2025-01-01T11:00:00Z", "", "e1", some "A", "a@x"⟩]⟩]
    "T0" 2 (by decide)

/-! ## Claim C6: the output envelope -/

/-- Every `MAIN_FORMAT` instance has the envelope shape. -/
theorem isEnveloped_mainFormat (d o : String) : isEnveloped (mainFormat d o) = true := rfl

/-- The per-message formatting loop of `get_user_emails` always succeeds
(its only fallible step, `parse_email_body`, never raises). -/
theorem emailsFold_isOk (msgs : List MailMessage) :
    ∀ init : String, ∃ s,
      msgs.foldlM (fun out m => do
        let s ← formatOneMail m
        Except.ok (out ++ s)) init = .ok s := by
  induction msgs with
  | nil => intro init; exact ⟨init, rfl⟩
  | cons m ms ih =>
    intro init
    obtain ⟨eb, heb⟩ := parse_email_body_isOk m.payload
    obtain ⟨s, hs⟩ := ih (init ++ mailFormat m.id
      (get_header_value m.payload.headers "Date")
      (get_header_value m.payload.headers "From")
      (get_header_value m.payload.headers "Subject")
      m.snippet (m.labelIds.contains "UNREAD") eb)
    refine ⟨s, ?_⟩
    simp only [List.foldlM_cons, formatOneMail, heb, Bind.bind, Except.bind]
    exact hs

/-- C6 (counterexample): `gmail_create_draft` returns its confirmation text
bare, NOT inside the `<interpreter_output>` envelope, falsifying the claim
that every public operation returns inside the envelope. -/
theorem envelope_claim_fails :
    gmail_create_draft (some ()) {} "a@b" "s" "hi" = .ok "Draft message created!"
    ∧ isEnveloped "Draft message created!" = false := by
  exact ⟨rfl, rfl⟩

/-- C6 (amended): `get_user_emails`, `get_email_content` and
`get_user_events` wrap every returned string — vendor failures rendered as
error text included — in the `MAIN_FORMAT` envelope with the documented
`<emails>`, CDATA and `<events>` wrappers; `gmail_create_draft` alone
returns its confirmation or error text bare, without the envelope. -/
theorem envelope_spec :
    (∀ (v : Valves) (w : MailWorld) (c : Int) (l s : String),
      get_user_emails (some ()) v w c l = .ok s →
      ∃ d x, s = mainFormat d ("<emails>" ++ x ++ "</emails>"))
    ∧ (∀ (w : MailWorld) (mid s : String),
      get_email_content (some ()) w mid = .ok s →
      ∃ d x, s = mainFormat d ("<![CDATA[" ++ x ++ "]]>"))
    ∧ (∀ (v : Valves) (w : CalWorld) (c : Int) (s : String),
      get_user_events (some ()) v w c = .ok s →
      ∃ d x, s = mainFormat d ("<events>" ++ x ++ "</events>"))
    ∧ (∀ (w : DraftWorld) (t su b s : String),
      gmail_create_draft (some ()) w t su b = .ok s →
      isEnveloped s = false)
    ∧ (∀ d o, isEnveloped (mainFormat d o) = true)
    ∧ (∀ (v : Valves) (w : MailWorld) (m : String) (c : Int) (l : String),
      w.fail = some m →
      get_user_emails (some ()) v w c l
        = .ok (mainFormat
            (mailDesc (if c = -1 then v.default_email_entries else c) l w.now)
            ("<emails>" ++ ("An error occurred: " ++ m) ++ "</emails>")))
    ∧ (∀ (v : Valves) (w : CalWorld) (m : String) (c : Int),
      w.fail = some m →
      get_user_events (some ()) v w c
        = .ok (mainFormat
            (calDesc (if c = -1 then v.default_calendar_entries else c) w.now)
            ("<events>" ++ ("Error fetching calendar data: " ++ m) ++ "</events>"))) := by
  refine ⟨?_, ?_, ?_, ?_, isEnveloped_mainFormat, ?_, ?_⟩
  · intro v w c l s hs
    simp only [get_user_emails, awaitEmitter, Bind.bind, Except.bind] at hs
    cases h : getUserEmailsTry w (if c = -1 then v.default_email_entries else c) l with
    | ok o =>
      rw [h] at hs
      cases hs
      exact ⟨_, _, rfl⟩
    | error e =>
      rw [h] at hs
      cases e with
      | httpError m =>
        cases hs
        exact ⟨_, _, rfl⟩
      | indexError => cases hs
      | keyError k => cases hs
      | valueError m => cases hs
      | typeError => cases hs
      | fileNotFoundError p => cases hs
  · intro w mid s hs
    simp only [get_email_content, awaitEmitter, Bind.bind, Except.bind] at hs
    cases h : getEmailContentTry w mid with
    | ok o =>
      rw [h] at hs
      cases hs
      exact ⟨_, _, rfl⟩
    | error e =>
      rw [h] at hs
      cases e with
      | httpError m =>
        cases hs
        exact ⟨_, _, rfl⟩
      | indexError => cases hs
      | keyError k => cases hs
      | valueError m => cases hs
      | typeError => cases hs
      | fileNotFoundError p => cases hs
  · intro v w c s hs
    simp only [get_user_events, awaitEmitter, Bind.bind, Except.bind] at hs
    cases h : getUserEventsTry w (if c = -1 then v.default_calendar_entries else c) with
    | ok o =>
      rw [h] at hs
      cases hs
      exact ⟨_, _, rfl⟩
    | error e =>
      rw [h] at hs
      cases e with
      | httpError m =>
        cases hs
        exact ⟨_, _, rfl⟩
      | indexError => cases hs
      | keyError k => cases hs
      | valueError m => cases hs
      | typeError => cases hs
      | fileNotFoundError p => cases hs
  · intro w t su b s hs
    simp only [gmail_create_draft, awaitEmitter, Bind.bind, Except.bind] at hs
    cases hw : w.fail with
    | none =>
      rw [hw] at hs
      cases hs
      rfl
    | some m =>
      rw [hw] at hs
      cases hs
      rfl
  · intro v w m c l hw
    simp only [get_user_emails, awaitEmitter, getUserEmailsTry, hw,
      Bind.bind, Except.bind]
    rfl
  · intro v w m c hw
    simp only [get_user_events, awaitEmitter, getUserEventsTry, hw,
      Bind.bind, Except.bind]
    rfl

/-- C6 (witness): concrete instantiations — an empty inbox yields an
enveloped emails list, and a successful draft creation yields bare,
unenveloped text. -/
theorem envelope_spec_witness :
    (∃ d x, mainFormat (mailDesc 5 "INBOX" "T") ("<emails>" ++ "No messages found." ++ "</emails>")
      = mainFormat d ("<emails>" ++ x ++ "</emails>"))
    ∧ isEnveloped "Draft message created!" = false := by
  constructor
  · exact envelope_spec.1 {} { messages := [], fail := none, now := "T" } 5 "INBOX"
      (mainFormat (mailDesc 5 "INBOX" "T") ("<emails>" ++ "No messages found." ++ "</emails>"))
      rfl
  · exact envelope_spec.2.2.2.1 {} "a@b" "s" "hi" "Draft message created!" rfl

/-! ## Claims C1, C9: get_google_creds -/

/-- C1 (counterexample): with the token file present and both acquisition
attempts failing, `get_google_creds(retry=True)` performs the deletion and
the single re-attempt but then RETURNS `None` — no exception reaches the
caller, so a second consecutive failure is swallowed, not raised. -/
theorem creds_second_failure_swallowed :
    get_google_creds
      { tokenExists := true,
        attemptResult := fun _ => .failure (.valueError "bad token") none } true
      = (.ok none, [.attempt, .deleteToken, .attempt]) := by
  simp [get_google_creds]

/-- C1 (amended): on an exception in the load/refresh/consent sequence, if
`retry` is true and the token file exists, the file is deleted and the
acquisition re-attempted exactly once with `retry=false`, and no exception
propagates from the retry; if `retry` is false, the exception is caught and
the function returns the current credentials value (possibly `None`) — the
failure is swallowed, not raised. -/
theorem creds_retry_behaviour (w : CredWorld) (e : PyExc) (leftover : Option Creds)
    (hfail : w.attemptResult w.tokenExists = .failure e leftover) :
    (w.tokenExists = true →
      ∃ r, get_google_creds w true = (r, [.attempt, .deleteToken, .attempt])
        ∧ ∀ exc, r ≠ .error exc)
    ∧ get_google_creds w false = (.ok leftover, [.attempt]) := by
  constructor
  · intro htok
    rw [htok] at hfail
    cases hsecond : w.attemptResult false with
    | success c =>
      refine ⟨.ok (some c), ?_, by intro exc h; cases h⟩
      simp [get_google_creds, hfail, htok, hsecond]
    | failure e2 l2 =>
      refine ⟨.ok l2, ?_, by intro exc h; cases h⟩
      simp [get_google_creds, hfail, htok, hsecond]
  · simp [get_google_creds, hfail]

/-- C1 (witness): a concrete failing world exercising both branches of the
amended claim. -/
theorem creds_retry_behaviour_witness :
    (∃ r, get_google_creds
        { tokenExists := true,
          attemptResult := fun _ => .failure (.valueError "bad token") none } true
      = (r, [.attempt, .deleteToken, .attempt]) ∧ ∀ exc, r ≠ .error exc)
    ∧ get_google_creds
        { tokenExists := true,
          attemptResult := fun _ => .failure (.valueError "bad token") none } false
      = (.ok none, [.attempt]) := by
  exact creds_retry_behaviour
    { tokenExists := true,
      attemptResult := fun _ => .failure (.valueError "bad token") none }
    (.valueError "bad token") none rfl
    |>.imp (fun h => h rfl) id

/-- C9: when no token file exists and the first acquisition attempt fails,
the retry branch's `os.remove("token.json")` itself raises
`FileNotFoundError`, which replaces the original failure and propagates —
there is no deletion event and no second acquisition attempt. -/
theorem creds_missing_token_retry_crash (w : CredWorld) (e : PyExc)
    (leftover : Option Creds)
    (htok : w.tokenExists = false)
    (hfail : w.attemptResult false = .failure e leftover) :
    get_google_creds w true = (.error (.fileNotFoundError "token.json"), [.attempt]) := by
  simp [get_google_creds, htok, hfail]

/-- C9 (witness): a concrete first-run world (no token file, client secret
missing) where the retry branch raises `FileNotFoundError`. -/
theorem creds_missing_token_retry_crash_witness :
    get_google_creds
      { tokenExists := false,
        attemptResult := fun _ => .failure (.fileNotFoundError "credentials.json") none } true
      = (.error (.fileNotFoundError "token.json"), [.attempt]) := by
  exact creds_missing_token_retry_crash
    { tokenExists := false,
      attemptResult := fun _ => .failure (.fileNotFoundError "credentials.json") none }
    (.fileNotFoundError "credentials.json") none rfl rfl

/-! ## Claim C10: the event emitter precondition -/

/-- C10: every public operation awaits `__event_emitter__` before any fetch,
so with the default `None` each raises `TypeError` regardless of the world
(hence before any vendor call could matter) and returns no formatted
output. -/
theorem emitter_none_typeError :
    (∀ (v : Valves) (w : MailWorld) (c : Int) (l : String),
      get_user_emails none v w c l = .error .typeError)
    ∧ (∀ (w : MailWorld) (mid : String),
      get_email_content none w mid = .error .typeError)
    ∧ (∀ (w : DraftWorld) (t su b : String),
      gmail_create_draft none w t su b = .error .typeError)
    ∧ (∀ (v : Valves) (w : CalWorld) (c : Int),
      get_user_events none v w c = .error .typeError) := by
  exact ⟨fun v w c l => rfl, fun w mid => rfl, fun w t su b => rfl,
    fun v w c => rfl⟩
